import Mathlib

/-!
Verification of the encrypted task-tracker storage layer.

The development shallowly embeds the storage layer of the repository:
`TaskManager.py` (environment-backed key, SHA-256 integrity file,
timestamped archival backups) in namespace `TM`, and the rolling-backup
variant `tracker_Encryption.py` / `tracker_Log.py` (file-backed key,
single `tasks.json.bak` backup, no hashing) in namespace `Enc`.

Pure functions become Lean functions; the filesystem becomes an explicit
state record threaded through each operation; Python exceptions become
`Except`.  The Fernet cipher is modelled as a key-tagged, nonce-tagged
container: decryption with the correct key recovers the payload,
decryption with any other key fails - exactly the contract the claims
rely on.  The SHA-256 hex digest and `json.loads` are parameters of the
theorems (the statements hold for every choice, in particular the real
ones); `json.dumps` and `str.strip` are implemented concretely.
-/

namespace TaskTracker

/-- A task record as built by `add_task`: the dict
`\x7b"id": ..., "title": ..., "description": ..., "status": ...\x7d`. -/
structure Task where
  id : Int
  title : String
  description : String
  status : String
deriving DecidableEq, Repr

/-- Hex digit character, lower case, as CPython prints it. -/
def hexDigit (n : Nat) : Char :=
  if n < 10 then Char.ofNat (48 + n) else Char.ofNat (87 + n)

/-- Four hex digits, as in a JSON unicode escape. -/
def hex4 (n : Nat) : String :=
  String.mk [hexDigit (n / 4096 % 16), hexDigit (n / 256 % 16),
             hexDigit (n / 16 % 16), hexDigit (n % 16)]

/-- JSON escaping of one character, following `json.dumps` defaults
(`ensure_ascii=True`): the two-character escapes for backslash, quote and
common control characters, `\uXXXX` for other control and all non-ASCII
characters, surrogate pairs above the BMP. -/
def escapeChar (c : Char) : String :=
  if c = '\\' then "\\\\"
  else if c = '"' then "\\\""
  else if c = '\n' then "\\n"
  else if c = '\t' then "\\t"
  else if c = '\r' then "\\r"
  else if c.toNat = 8 then "\\b"
  else if c.toNat = 12 then "\\f"
  else if c.toNat < 32 then "\\u" ++ hex4 c.toNat
  else if c.toNat < 127 then String.singleton c
  else if c.toNat < 65536 then "\\u" ++ hex4 c.toNat
  else
    let n := c.toNat - 65536
    "\\u" ++ hex4 (55296 + n / 1024) ++ "\\u" ++ hex4 (56320 + n % 1024)

/-- A JSON string literal: quotes around the escaped characters. -/
def jsonQuote (s : String) : String :=
  "\"" ++ String.join (s.toList.map escapeChar) ++ "\""

/-- Serialization of one task dict, key order `id, title, description,
status` (insertion order, as `json.dumps` preserves it), with the default
separators `", "` and `": "`. -/
def dumpTask (t : Task) : String :=
  "\x7b\"id\": " ++ toString t.id ++
  ", \"title\": " ++ jsonQuote t.title ++
  ", \"description\": " ++ jsonQuote t.description ++
  ", \"status\": " ++ jsonQuote t.status ++ "\x7d"

/-- Model of `json.dumps(tasks)` for a list of task dicts. -/
def json_dumps (tasks : List Task) : String :=
  "[" ++ String.intercalate ", " (tasks.map dumpTask) ++ "]"

/-- Whitespace stripped by Python `str.strip()`, the full set CPython
treats as Unicode whitespace: tab, newline, vertical tab, form feed,
carriage return, the separators 28-31, space, next line 133, no-break
space 160, ogham space mark 5760, the en-quad .. hair-space range
8192-8202, line separator 8232, paragraph separator 8233, narrow
no-break space 8239, medium mathematical space 8287, and ideographic
space 12288. -/
def isPySpace (c : Char) : Bool :=
  c.toNat = 9 || c.toNat = 10 || c.toNat = 11 || c.toNat = 12 ||
  c.toNat = 13 || c.toNat = 28 || c.toNat = 29 || c.toNat = 30 ||
  c.toNat = 31 || c.toNat = 32 || c.toNat = 133 || c.toNat = 160 ||
  c.toNat = 5760 || (8192 ≤ c.toNat && c.toNat ≤ 8202) ||
  c.toNat = 8232 || c.toNat = 8233 || c.toNat = 8239 ||
  c.toNat = 8287 || c.toNat = 12288

/-- Model of Python `s.strip()`: drop whitespace from both ends. -/
def pyStrip (s : String) : String :=
  String.mk (((s.toList.dropWhile isPySpace).reverse.dropWhile isPySpace).reverse)

/-- A Fernet token.  Fernet is an authenticated symmetric scheme with a
fresh random IV per call; the model records the encrypting key, the
per-call randomness and the payload.  `fernetDecrypt` recovers the
payload exactly when the key matches, mirroring that decryption under a
wrong key raises `InvalidToken`. -/
structure Ciphertext where
  key : String
  nonce : Nat
  payload : String
deriving DecidableEq, Repr

/-- Model of `Fernet(key).encrypt(data)`; `nonce` is the fresh
randomness the library draws for the call. -/
def fernetEncrypt (key : String) (nonce : Nat) (plaintext : String) : Ciphertext :=
  ⟨key, nonce, plaintext⟩

/-- Model of `Fernet(key).decrypt(token)`: the payload under the right
key, failure (`InvalidToken`) under any other. -/
def fernetDecrypt (key : String) (c : Ciphertext) : Option String :=
  if c.key = key then some c.payload else none

/-- Contents of a file on disk: empty, or a Fernet token. -/
inductive FileData where
  | empty
  | enc (c : Ciphertext)
deriving DecidableEq, Repr

namespace TM

/-- Filesystem and environment state seen by `TaskManager.py`:
the `ENCRYPTION_KEY` environment variable, `tasks.json`,
`tasks_hash.sha256`, and the files of `backups/` as an association list
from file name to contents. -/
structure FS where
  env : Option String
  store : Option FileData
  hashFile : Option String
  backups : List (String × FileData)
deriving DecidableEq, Repr

/-- Model of `load_key` (TaskManager.py, lines 27-31): read
`ENCRYPTION_KEY` from the environment and raise `ValueError` when
`not key`, which holds both for an absent variable and for an empty
string. -/
def load_key (env : Option String) : Except String String :=
  match env with
  | none => .error "ENCRYPTION_KEY environment variable not set"
  | some k =>
    if k = "" then .error "ENCRYPTION_KEY environment variable not set"
    else .ok k

/-- Model of `encrypt_data` (lines 34-38): load the key, encrypt with a
fresh nonce.  Propagates the `ValueError` of `load_key`. -/
def encrypt_data (env : Option String) (nonce : Nat) (data : String) :
    Except String Ciphertext :=
  match load_key env with
  | .error e => .error e
  | .ok key => .ok (fernetEncrypt key nonce data)

/-- Model of `decrypt_data` (lines 41-45): load the key, decrypt;
`InvalidToken` when the token does not verify under the key. -/
def decrypt_data (env : Option String) (c : Ciphertext) : Except String String :=
  match load_key env with
  | .error e => .error e
  | .ok key =>
    match fernetDecrypt key c with
    | none => .error "InvalidToken"
    | some s => .ok s

/-- Model of `secure_file_creation` (lines 48-53): when `tasks.json` is
absent, write the encryption of `json.dumps([])` to it; otherwise do
nothing. -/
def secure_file_creation (nonce : Nat) (fs : FS) : Except String FS :=
  match fs.store with
  | some _ => .ok fs
  | none =>
    match encrypt_data fs.env nonce (json_dumps []) with
    | .error e => .error e
    | .ok c => .ok { fs with store := some (.enc c) }

/-- The backup file name `tasks_<timestamp>.json` built by
`create_backup`. -/
def backupName (ts : String) : String := "tasks_" ++ ts ++ ".json"

/-- Writing a file into the backup directory: overwrite an existing
entry of the same name, otherwise append a new one. -/
def putBackup (bs : List (String × FileData)) (name : String) (d : FileData) :
    List (String × FileData) :=
  if bs.any (fun p => p.1 == name) then
    bs.map (fun p => if p.1 == name then (name, d) else p)
  else bs ++ [(name, d)]

/-- Model of `create_backup` (lines 56-62): copy `tasks.json` to
`backups/tasks_<timestamp>.json`.  `shutil.copy` raises
`FileNotFoundError` when the source file does not exist; there is no
existence check in this variant. -/
def create_backup (ts : String) (fs : FS) : Except String FS :=
  match fs.store with
  | none => .error "FileNotFoundError"
  | some d => .ok { fs with backups := putBackup fs.backups (backupName ts) d }

/-- Model of `calculate_hash` (lines 65-66); `sha` stands for the
SHA-256 hex digest function, a parameter of the development. -/
def calculate_hash (sha : String → String) (data : String) : String := sha data

/-- Model of `save_hash` (lines 69-71): overwrite
`tasks_hash.sha256` with the digest. -/
def save_hash (hv : String) (fs : FS) : FS := { fs with hashFile := some hv }

/-- Model of `verify_integrity` (lines 74-86): skipped (true) when the
hash file is absent, otherwise a comparison of the stored digest with
the recomputed one. -/
def verify_integrity (sha : String → String) (data : String) (fs : FS) : Bool :=
  match fs.hashFile with
  | none => true
  | some stored => stored == calculate_hash sha data

/-- Model of `load_tasks` (lines 89-100): ensure the store file exists,
read it, return `[]` on an empty file, decrypt, verify integrity, parse
on success and return `[]` on mismatch.  `jsonLoads` stands for
`json.loads` restricted to task arrays, a parameter of the development;
`none` is a `JSONDecodeError`. -/
def load_tasks (sha : String → String) (jsonLoads : String → Option (List Task))
    (nonce : Nat) (fs : FS) : Except String (List Task × FS) :=
  match secure_file_creation nonce fs with
  | .error e => .error e
  | .ok fs1 =>
    match fs1.store with
    | none => .error "FileNotFoundError"
    | some .empty => .ok ([], fs1)
    | some (.enc c) =>
      match decrypt_data fs1.env c with
      | .error e => .error e
      | .ok p =>
        if verify_integrity sha p fs1 then
          match jsonLoads p with
          | none => .error "JSONDecodeError"
          | some ts => .ok (ts, fs1)
        else .ok ([], fs1)

/-- Model of `save_tasks` (lines 103-111): back up the store file,
serialize, encrypt, write the ciphertext to `tasks.json`, then write the
digest of the plaintext to the hash file. -/
def save_tasks (sha : String → String) (nonce : Nat) (ts : String)
    (tasks : List Task) (fs : FS) : Except String FS :=
  match create_backup ts fs with
  | .error e => .error e
  | .ok fs1 =>
    match encrypt_data fs1.env nonce (json_dumps tasks) with
    | .error e => .error e
    | .ok c =>
      .ok (save_hash (calculate_hash sha (json_dumps tasks))
            { fs1 with store := some (.enc c) })

/-- Model of `add_task` (lines 114-132): strip the two inputs, return
without touching the store when either is empty, otherwise load, append
the task `id = len(tasks)+1, status = "not done"` and save. -/
def add_task (sha : String → String) (jsonLoads : String → Option (List Task))
    (titleInput descInput : String) (nLoad nSave : Nat) (ts : String)
    (fs : FS) : Except String FS :=
  let title := pyStrip titleInput
  if title = "" then .ok fs
  else
    let description := pyStrip descInput
    if description = "" then .ok fs
    else
      match load_tasks sha jsonLoads nLoad fs with
      | .error e => .error e
      | .ok (tasks, fs1) =>
        save_tasks sha nSave ts
          (tasks ++ [⟨(tasks.length : Int) + 1, title, description, "not done"⟩]) fs1

/-- A sequence of successive `save_tasks` calls; each entry carries the
fresh encryption nonce, the capture timestamp and the collection
saved. -/
def save_seq (sha : String → String) (saves : List (Nat × String × List Task))
    (fs : FS) : Except String FS :=
  match saves with
  | [] => .ok fs
  | s :: rest =>
    match save_tasks sha s.1 s.2.1 s.2.2 fs with
    | .error e => .error e
    | .ok fs1 => save_seq sha rest fs1

/-- The per-task effect of the `update_task_status` loop body. -/
def updStatus (task_id : Int) (new_status : String) (t : Task) : Task :=
  if t.id = task_id then { t with status := new_status } else t

/-- Model of the persistence loop of `update_task_status`
(lines 177-183): iterate over the list, mutate the status of each
matching task in place, and call `save_tasks` on the whole (partially
mutated) list at each match.  `done` is the already traversed prefix,
`last` the argument of the most recent save; the result is the argument
of the final save, `none` when no save happened. -/
def update_status_loop (task_id : Int) (new_status : String) :
    List Task → List Task → Option (List Task) → Option (List Task)
  | _, [], last => last
  | done, t :: rest, last =>
    if t.id = task_id then
      update_status_loop task_id new_status
        (done ++ [{ t with status := new_status }]) rest
        (some (done ++ { t with status := new_status } :: rest))
    else
      update_status_loop task_id new_status (done ++ [t]) rest last

/-- The collection persisted by `update_task_status` (lines 162-183)
once the interactive prompts have produced `task_id` and
`new_status`. -/
def update_task_status (task_id : Int) (new_status : String)
    (tasks : List Task) : Option (List Task) :=
  update_status_loop task_id new_status [] tasks none

end TM

namespace Enc

/-- Filesystem state seen by `tracker_Encryption.py` and
`tracker_Log.py`: the key file `encryption_key.key`, `tasks.json` and
the rolling backup `tasks.json.bak`. -/
structure EFS where
  keyFile : Option String
  store : Option FileData
  bak : Option FileData
deriving DecidableEq, Repr

/-- Model of `load_key` (tracker_Encryption.py, lines 17-24): generate
and persist a fresh key (`newKey`) when the key file is absent, then
read and return the key file. -/
def load_key (newKey : String) (fs : EFS) : String × EFS :=
  match fs.keyFile with
  | none => (newKey, { fs with keyFile := some newKey })
  | some k => (k, fs)

/-- Model of `encrypt_data` (lines 27-31) of the rolling variant. -/
def encrypt_data (newKey : String) (nonce : Nat) (data : String) (fs : EFS) :
    Ciphertext × EFS :=
  let p := load_key newKey fs
  (fernetEncrypt p.1 nonce data, p.2)

/-- Model of `backup_tasks_file` (lines 48-52): copy `tasks.json` to
`tasks.json.bak` when it exists, otherwise do nothing. -/
def backup_tasks_file (fs : EFS) : EFS :=
  match fs.store with
  | none => fs
  | some d => { fs with bak := some d }

/-- Model of `save_tasks` (lines 65-70) of the rolling variant: back up,
serialize, encrypt, overwrite `tasks.json`. -/
def save_tasks (newKey : String) (nonce : Nat) (tasks : List Task)
    (fs : EFS) : EFS :=
  let fs1 := backup_tasks_file fs
  let p := encrypt_data newKey nonce (json_dumps tasks) fs1
  { p.2 with store := some (.enc p.1) }

/-- A sequence of successive saves of the rolling variant; each entry
carries the nonce and the collection saved. -/
def save_seq (newKey : String) (saves : List (Nat × List Task)) (fs : EFS) : EFS :=
  saves.foldl (fun f s => save_tasks newKey s.1 s.2 f) fs

end Enc

/-- Claim C6: in environment-backed key mode, `load_key` fails with a
configuration error (`ValueError`) whenever the `ENCRYPTION_KEY` binding
is absent; being a pure read of the environment, it generates and
persists nothing. -/
theorem load_key_env_absent_fails :
    TM.load_key none =
      Except.error "ENCRYPTION_KEY environment variable not set" := rfl

/-- Claim C8: for every plaintext, when the integrity file is absent,
`verify_integrity` returns true, treating the data as verified. -/
theorem verify_integrity_no_hash_file (sha : String → String) (P : String)
    (fs : TM.FS) (h : fs.hashFile = none) :
    TM.verify_integrity sha P fs = true := by
  unfold TM.verify_integrity
  rw [h]

/-- Witness for claim C8 at a concrete state with no hash file. -/
theorem verify_integrity_no_hash_file_witness :
    TM.verify_integrity (fun s => s) "[]" ⟨some "k", none, none, []⟩ = true :=
  verify_integrity_no_hash_file (fun s => s) "[]" ⟨some "k", none, none, []⟩ rfl

/-- Claim C7: after the digest of plaintext `P` has been stored by
`save_hash`, `verify_integrity` accepts `P`; and it rejects every
plaintext whose digest differs from the stored one. -/
theorem verify_after_save_hash (sha : String → String) (P Q : String)
    (fs : TM.FS)
    (hne : TM.calculate_hash sha Q ≠ TM.calculate_hash sha P) :
    TM.verify_integrity sha P (TM.save_hash (TM.calculate_hash sha P) fs) = true ∧
    TM.verify_integrity sha Q (TM.save_hash (TM.calculate_hash sha P) fs) = false := by
  have hbeq : (TM.calculate_hash sha P == TM.calculate_hash sha Q) = false :=
    beq_eq_false_iff_ne.mpr (fun h => hne h.symm)
  constructor
  · simp [TM.verify_integrity, TM.save_hash]
  · simp [TM.verify_integrity, TM.save_hash, hbeq]

/-- Witness for claim C7: with the identity standing in for the digest
function, plaintexts a and b have different digests. -/
theorem verify_after_save_hash_witness :
    TM.verify_integrity (fun s => s) "a"
      (TM.save_hash (TM.calculate_hash (fun s => s) "a")
        ⟨some "k", none, none, []⟩) = true ∧
    TM.verify_integrity (fun s => s) "b"
      (TM.save_hash (TM.calculate_hash (fun s => s) "a")
        ⟨some "k", none, none, []⟩) = false :=
  verify_after_save_hash (fun s => s) "a" "b" ⟨some "k", none, none, []⟩
    (by decide)

/-- Claim C4: for every Collection and every non-empty key, decrypting
the encryption of the serialized form of the Collection yields the
serialized form byte for byte. -/
theorem encrypt_decrypt_roundtrip (K : String) (hK : K ≠ "") (n : Nat)
    (C : List Task) :
    TM.encrypt_data (some K) n (json_dumps C) =
      Except.ok (fernetEncrypt K n (json_dumps C)) ∧
    TM.decrypt_data (some K) (fernetEncrypt K n (json_dumps C)) =
      Except.ok (json_dumps C) := by
  constructor
  · simp [TM.encrypt_data, TM.load_key, hK]
  · simp [TM.decrypt_data, TM.load_key, hK, fernetDecrypt, fernetEncrypt]

/-- Witness for claim C4 at key k and the empty Collection. -/
theorem encrypt_decrypt_roundtrip_witness :
    TM.encrypt_data (some "k") 0 (json_dumps []) =
      Except.ok (fernetEncrypt "k" 0 (json_dumps [])) ∧
    TM.decrypt_data (some "k") (fernetEncrypt "k" 0 (json_dumps [])) =
      Except.ok (json_dumps []) :=
  encrypt_decrypt_roundtrip "k" (by decide) 0 []

/-- Claim C1: whenever the store decrypts to a plaintext whose digest
differs from the stored digest, `load_tasks` does not raise: it returns
the empty Collection and not the decrypted data. -/
theorem load_tasks_integrity_mismatch (sha : String → String)
    (jsonLoads : String → Option (List Task)) (n : Nat) (fs : TM.FS)
    (c : Ciphertext) (K P D : String)
    (henv : fs.env = some K) (hK : K ≠ "")
    (hstore : fs.store = some (.enc c)) (hdec : fernetDecrypt K c = some P)
    (hhash : fs.hashFile = some D)
    (hmis : D ≠ TM.calculate_hash sha P) :
    TM.load_tasks sha jsonLoads n fs = Except.ok ([], fs) := by
  have hbeq : (D == TM.calculate_hash sha P) = false :=
    beq_eq_false_iff_ne.mpr hmis
  simp [TM.load_tasks, TM.secure_file_creation, hstore, TM.decrypt_data, henv,
        TM.load_key, hK, hdec, TM.verify_integrity, hhash, hbeq]

/-- Witness for claim C1: a store holding a token whose payload hashes
(under the constant digest function H) to a value different from the
stored digest D. -/
theorem load_tasks_integrity_mismatch_witness :
    TM.load_tasks (fun _s => "H") (fun _s => none) 0
      ⟨some "k", some (.enc ⟨"k", 0, "payload"⟩), some "D", []⟩ =
      Except.ok ([], ⟨some "k", some (.enc ⟨"k", 0, "payload"⟩), some "D", []⟩) :=
  load_tasks_integrity_mismatch (fun _s => "H") (fun _s => none) 0
    ⟨some "k", some (.enc ⟨"k", 0, "payload"⟩), some "D", []⟩
    ⟨"k", 0, "payload"⟩ "k" "payload" "D" rfl (by decide) rfl (by decide) rfl
    (by decide)

/-- Claim C3 (code bug): the archival `create_backup` of TaskManager.py
copies `tasks.json` without an existence check, so `shutil.copy` raises
`FileNotFoundError` when no store file exists, while the rolling
`backup_tasks_file` of the sibling variants checks and is a no-op as the
spec requires. -/
theorem create_backup_missing_store_raises :
    TM.create_backup "20240101_120000" ⟨some "k", none, none, []⟩ =
      Except.error "FileNotFoundError" ∧
    Enc.backup_tasks_file ⟨some "k", none, none⟩ = ⟨some "k", none, none⟩ :=
  ⟨rfl, rfl⟩

/-- Claim C9: every byte sequence written to the store file is the
encryption of the JSON serialization of a Collection: first-time secure
creation writes the encryption of the serialized empty Collection, and
every Save writes the encryption of the serialized Collection being
saved. -/
theorem store_writes_are_ciphertext (sha : String → String) (K : String)
    (hK : K ≠ "") (n m : Nat) (ts : String) (tasks : List Task) (fs : TM.FS)
    (henv : fs.env = some K) :
    (fs.store = none →
      TM.secure_file_creation n fs =
        Except.ok { fs with store := some (.enc (fernetEncrypt K n (json_dumps []))) }) ∧
    (∀ d, fs.store = some d →
      ∃ fs2, TM.save_tasks sha m ts tasks fs = Except.ok fs2 ∧
        fs2.store = some (.enc (fernetEncrypt K m (json_dumps tasks)))) := by
  constructor
  · intro h
    simp [TM.secure_file_creation, h, TM.encrypt_data, henv, TM.load_key, hK]
  · intro d h
    have hrun : TM.save_tasks sha m ts tasks fs =
        Except.ok { fs with
          backups := TM.putBackup fs.backups (TM.backupName ts) d,
          store := some (.enc (fernetEncrypt K m (json_dumps tasks))),
          hashFile := some (TM.calculate_hash sha (json_dumps tasks)) } := by
      simp [TM.save_tasks, TM.create_backup, h, TM.encrypt_data, henv,
            TM.load_key, hK, TM.save_hash]
    exact ⟨_, hrun, rfl⟩

/-- Helper: the exact state produced by one successful `save_tasks`. -/
theorem save_tasks_ok (sha : String → String) (K : String) (hK : K ≠ "")
    (n : Nat) (ts : String) (tasks : List Task) (fs : TM.FS) (d : FileData)
    (henv : fs.env = some K) (hstore : fs.store = some d) :
    TM.save_tasks sha n ts tasks fs =
      Except.ok { fs with
        backups := TM.putBackup fs.backups (TM.backupName ts) d,
        store := some (.enc (fernetEncrypt K n (json_dumps tasks))),
        hashFile := some (TM.calculate_hash sha (json_dumps tasks)) } := by
  simp [TM.save_tasks, TM.create_backup, hstore, TM.encrypt_data, henv,
        TM.load_key, hK, TM.save_hash]

/-- Helper: a successful `load_tasks` on a well-formed saved state
returns the saved collection and leaves the state unchanged. -/
theorem load_tasks_ok (sha : String → String)
    (jsonLoads : String → Option (List Task)) (K : String) (hK : K ≠ "")
    (n0 n : Nat) (tasks0 : List Task) (fs : TM.FS)
    (henv : fs.env = some K)
    (hstore : fs.store = some (.enc (fernetEncrypt K n0 (json_dumps tasks0))))
    (hhash : fs.hashFile = some (TM.calculate_hash sha (json_dumps tasks0)))
    (hparse : jsonLoads (json_dumps tasks0) = some tasks0) :
    TM.load_tasks sha jsonLoads n fs = Except.ok (tasks0, fs) := by
  simp [TM.load_tasks, TM.secure_file_creation, hstore, TM.decrypt_data, henv,
        TM.load_key, hK, fernetDecrypt, fernetEncrypt, TM.verify_integrity,
        hhash, hparse]

/-- Witness for claim C9: the creation conjunct exercised concretely on
a state with no store file; the Save conjunct is vacuous at that state
and is exercised on store-present states by the C5 and C2 witnesses. -/
theorem store_writes_are_ciphertext_witness :
    ((⟨some "k", none, none, []⟩ : TM.FS).store = none →
      TM.secure_file_creation 0 ⟨some "k", none, none, []⟩ =
        Except.ok { (⟨some "k", none, none, []⟩ : TM.FS) with
          store := some (.enc (fernetEncrypt "k" 0 (json_dumps []))) }) ∧
    (∀ d, (⟨some "k", none, none, []⟩ : TM.FS).store = some d →
      ∃ fs2, TM.save_tasks (fun s => s) 1 "20240101_120000" []
          ⟨some "k", none, none, []⟩ = Except.ok fs2 ∧
        fs2.store = some (.enc (fernetEncrypt "k" 1 (json_dumps [])))) :=
  store_writes_are_ciphertext (fun s => s) "k" (by decide) 0 1
    "20240101_120000" [] ⟨some "k", none, none, []⟩ rfl

/-- Claim C5: on a well-formed store holding a Collection of size k,
`add_task` with non-empty stripped title and description persists
exactly that Collection extended by one task with id k+1 and status
"not done"; when either stripped input is empty it returns with the
state untouched, so no task with empty title or description is ever
persisted. -/
theorem add_task_spec (sha : String → String)
    (jsonLoads : String → Option (List Task)) (K ti di : String)
    (n0 nL nS : Nat) (ts : String) (tasks0 : List Task) (fs : TM.FS)
    (henv : fs.env = some K) (hK : K ≠ "")
    (hstore : fs.store = some (.enc (fernetEncrypt K n0 (json_dumps tasks0))))
    (hhash : fs.hashFile = some (TM.calculate_hash sha (json_dumps tasks0)))
    (hparse : jsonLoads (json_dumps tasks0) = some tasks0) :
    (pyStrip ti ≠ "" → pyStrip di ≠ "" →
      ∃ fs2, TM.add_task sha jsonLoads ti di nL nS ts fs = Except.ok fs2 ∧
        fs2.store = some (.enc (fernetEncrypt K nS (json_dumps (tasks0 ++
          [⟨(tasks0.length : Int) + 1, pyStrip ti, pyStrip di, "not done"⟩]))))) ∧
    ((pyStrip ti = "" ∨ pyStrip di = "") →
      TM.add_task sha jsonLoads ti di nL nS ts fs = Except.ok fs) := by
  have hload := load_tasks_ok sha jsonLoads K hK n0 nL tasks0 fs henv hstore
    hhash hparse
  constructor
  · intro h1 h2
    have hsave := save_tasks_ok sha K hK nS ts
      (tasks0 ++ [⟨(tasks0.length : Int) + 1, pyStrip ti, pyStrip di,
        "not done"⟩]) fs _ henv hstore
    exact ⟨_, by
      simp only [TM.add_task, if_neg h1, if_neg h2, hload]
      exact hsave, rfl⟩
  · intro h
    rcases h with h | h
    · simp [TM.add_task, h]
    · simp [TM.add_task, h]

/-- Witness for claim C5: adding the task titled A described d to the
empty Collection of a freshly saved store. -/
theorem add_task_spec_witness :
    (pyStrip "A" ≠ "" → pyStrip "d" ≠ "" →
      ∃ fs2, TM.add_task (fun s => s)
          (fun s => if s = json_dumps [] then some [] else none)
          "A" "d" 1 2 "20240101_120000"
          ⟨some "k", some (.enc (fernetEncrypt "k" 0 (json_dumps []))),
            some (TM.calculate_hash (fun s => s) (json_dumps [])), []⟩ =
        Except.ok fs2 ∧
        fs2.store = some (.enc (fernetEncrypt "k" 2 (json_dumps ([] ++
          [⟨(([] : List Task).length : Int) + 1, pyStrip "A", pyStrip "d",
            "not done"⟩]))))) ∧
    ((pyStrip "A" = "" ∨ pyStrip "d" = "") →
      TM.add_task (fun s => s)
          (fun s => if s = json_dumps [] then some [] else none)
          "A" "d" 1 2 "20240101_120000"
          ⟨some "k", some (.enc (fernetEncrypt "k" 0 (json_dumps []))),
            some (TM.calculate_hash (fun s => s) (json_dumps [])), []⟩ =
        Except.ok ⟨some "k", some (.enc (fernetEncrypt "k" 0 (json_dumps []))),
          some (TM.calculate_hash (fun s => s) (json_dumps [])), []⟩) :=
  add_task_spec (fun s => s)
    (fun s => if s = json_dumps [] then some [] else none)
    "k" "A" "d" 0 1 2 "20240101_120000" []
    ⟨some "k", some (.enc (fernetEncrypt "k" 0 (json_dumps []))),
      some (TM.calculate_hash (fun s => s) (json_dumps [])), []⟩
    rfl (by decide) rfl rfl (by simp)

/-- Helper: the loop body leaves a list without matching ids
unchanged. -/
theorem map_updStatus_of_no_match (tid : Int) (st : String) :
    ∀ l : List Task, (∀ t ∈ l, t.id ≠ tid) →
      l.map (TM.updStatus tid st) = l := by
  intro l h
  induction l with
  | nil => rfl
  | cons t rest ih =>
    have ht : t.id ≠ tid := h t (List.mem_cons_self t rest)
    simp [TM.updStatus, ht, ih (fun x hx => h x (List.mem_cons_of_mem t hx))]

/-- Helper: closed form of the `update_task_status` persistence loop:
when some task of the remaining list matches, the final save argument is
the traversed prefix followed by the pointwise status update of the
remainder; otherwise the most recent save argument is returned. -/
theorem update_status_loop_eq (tid : Int) (st : String) :
    ∀ (todo done : List Task) (last : Option (List Task)),
      TM.update_status_loop tid st done todo last =
        if ∃ t ∈ todo, t.id = tid then
          some (done ++ todo.map (TM.updStatus tid st))
        else last := by
  intro todo
  induction todo with
  | nil =>
    intro done last
    simp [TM.update_status_loop]
  | cons t rest ih =>
    intro done last
    by_cases ht : t.id = tid
    · rw [TM.update_status_loop, if_pos ht, ih]
      by_cases hr : ∃ x ∈ rest, x.id = tid
      · rw [if_pos hr, if_pos ⟨t, List.mem_cons_self t rest, ht⟩]
        simp [TM.updStatus, ht, List.append_assoc]
      · rw [if_neg hr, if_pos ⟨t, List.mem_cons_self t rest, ht⟩]
        have hrest : rest.map (TM.updStatus tid st) = rest :=
          map_updStatus_of_no_match tid st rest
            (fun x hx hxid => hr ⟨x, hx, hxid⟩)
        simp [TM.updStatus, ht, hrest]
    · rw [TM.update_status_loop, if_neg ht, ih]
      have hcons : (∃ x ∈ t :: rest, x.id = tid) ↔ ∃ x ∈ rest, x.id = tid := by
        constructor
        · rintro ⟨x, hx, hxid⟩
          rcases List.mem_cons.mp hx with rfl | hx2
          · exact absurd hxid ht
          · exact ⟨x, hx2, hxid⟩
        · rintro ⟨x, hx, hxid⟩
          exact ⟨x, List.mem_cons_of_mem t hx, hxid⟩
      by_cases hr : ∃ x ∈ rest, x.id = tid
      · rw [if_pos hr, if_pos (hcons.mpr hr)]
        simp [TM.updStatus, ht, List.append_assoc]
      · rw [if_neg hr, if_neg (fun hc => hr (hcons.mp hc))]

/-- Helper: the zip of the pointwise status update with the original
list pairs each updated task with its original. -/
theorem zip_map_updStatus (tid : Int) (st : String) :
    ∀ l : List Task, ∀ p ∈ (l.map (TM.updStatus tid st)).zip l,
      p.1 = TM.updStatus tid st p.2 := by
  intro l
  induction l with
  | nil => intro p hp; cases hp
  | cons t rest ih =>
    intro p hp
    simp only [List.map_cons, List.zip_cons_cons] at hp
    rcases List.mem_cons.mp hp with rfl | hp2
    · rfl
    · exact ih p hp2

/-- Claim C10: for a Collection containing a task with the chosen id,
`update_task_status` persists a Collection in which the ids, titles and
descriptions of all tasks, the statuses of all non-matching tasks, and
the order and length are unchanged, and every matching task carries the
new status. -/
theorem update_task_status_frame (tid : Int) (st : String)
    (tasks : List Task) (hmem : ∃ t ∈ tasks, t.id = tid) :
    ∃ tasks2, TM.update_task_status tid st tasks = some tasks2 ∧
      tasks2.map Task.id = tasks.map Task.id ∧
      tasks2.map Task.title = tasks.map Task.title ∧
      tasks2.map Task.description = tasks.map Task.description ∧
      tasks2.length = tasks.length ∧
      (∀ p ∈ tasks2.zip tasks, p.2.id ≠ tid → p.1.status = p.2.status) ∧
      (∀ p ∈ tasks2.zip tasks, p.2.id = tid → p.1.status = st) := by
  have hzip := zip_map_updStatus tid st tasks
  refine ⟨tasks.map (TM.updStatus tid st), ?_, ?_, ?_, ?_, ?_, ?_, ?_⟩
  · rw [TM.update_task_status, update_status_loop_eq, if_pos hmem,
        List.nil_append]
  · rw [List.map_map]
    exact List.map_congr_left (fun t _ => by
      simp only [Function.comp_apply, TM.updStatus]
      split <;> rfl)
  · rw [List.map_map]
    exact List.map_congr_left (fun t _ => by
      simp only [Function.comp_apply, TM.updStatus]
      split <;> rfl)
  · rw [List.map_map]
    exact List.map_congr_left (fun t _ => by
      simp only [Function.comp_apply, TM.updStatus]
      split <;> rfl)
  · exact List.length_map tasks _
  · intro p hp hne
    rw [hzip p hp]
    simp [TM.updStatus, hne]
  · intro p hp heq
    rw [hzip p hp]
    simp [TM.updStatus, heq]

/-- Witness for claim C10 on the one-task Collection with id 1. -/
theorem update_task_status_frame_witness :
    ∃ tasks2 : List Task, TM.update_task_status 1 "done"
        [⟨1, "A", "d", "not done"⟩] = some tasks2 ∧
      tasks2.map Task.id = [⟨1, "A", "d", "not done"⟩].map Task.id ∧
      tasks2.map Task.title = [⟨1, "A", "d", "not done"⟩].map Task.title ∧
      tasks2.map Task.description =
        [⟨1, "A", "d", "not done"⟩].map Task.description ∧
      tasks2.length = [(⟨1, "A", "d", "not done"⟩ : Task)].length ∧
      (∀ p ∈ tasks2.zip ([⟨1, "A", "d", "not done"⟩] : List Task),
        p.2.id ≠ 1 → p.1.status = p.2.status) ∧
      (∀ p ∈ tasks2.zip ([⟨1, "A", "d", "not done"⟩] : List Task),
        p.2.id = 1 → p.1.status = "done") :=
  update_task_status_frame 1 "done" [⟨1, "A", "d", "not done"⟩]
    ⟨⟨1, "A", "d", "not done"⟩, List.mem_cons_self _ _, rfl⟩

/-- Counterexample to claim C2 as stated: two successive Saves on an
existing store that fall within the same second carry the same
`%Y%m%d_%H%M%S` timestamp, so the second snapshot overwrites the first
and the backup directory holds one file, not two. -/
theorem archival_same_timestamp_counterexample :
    TM.save_seq (fun s => s)
        [(0, "20240101_120000", []), (1, "20240101_120000", [])]
        ⟨some "k", some (.enc ⟨"k", 0, "[]"⟩), none, []⟩ =
      Except.ok ⟨some "k", some (.enc ⟨"k", 1, "[]"⟩), some "[]",
        [("tasks_20240101_120000.json", .enc ⟨"k", 0, "[]"⟩)]⟩ ∧
    [("tasks_20240101_120000.json",
      (.enc ⟨"k", 0, "[]"⟩ : FileData))].length ≠ 2 := by
  constructor
  · rfl
  · decide

/-- Helper: writing a backup under a name not yet present appends. -/
theorem putBackup_fresh (bs : List (String × FileData)) (name : String)
    (d : FileData) (h : ∀ p ∈ bs, p.1 ≠ name) :
    TM.putBackup bs name d = bs ++ [(name, d)] := by
  have hfalse : (bs.any fun p => p.1 == name) = false := by
    rw [List.any_eq_false]
    intro p hp
    simpa using h p hp
  simp [TM.putBackup, hfalse]

/-- Helper: the timestamp determines the snapshot file name. -/
theorem backupName_injective : Function.Injective TM.backupName := by
  intro a b h
  unfold TM.backupName at h
  have hdata := congrArg String.data h
  simp only [String.data_append, List.append_assoc] at hdata
  exact String.ext (List.append_cancel_right (List.append_cancel_left hdata))

/-- Helper: a sequence of Saves whose snapshot names avoid each other
and the existing backup directory succeeds and appends exactly one
directory entry per Save. -/
theorem save_seq_backups (sha : String → String) (K : String) (hK : K ≠ "") :
    ∀ (saves : List (Nat × String × List Task)) (fs : TM.FS),
      fs.env = some K → (∃ d, fs.store = some d) →
      (fs.backups.map Prod.fst ++
        saves.map (fun s => TM.backupName s.2.1)).Nodup →
      ∃ fs2, TM.save_seq sha saves fs = Except.ok fs2 ∧
        fs2.env = some K ∧ (∃ d, fs2.store = some d) ∧
        fs2.backups.map Prod.fst =
          fs.backups.map Prod.fst ++
            saves.map (fun s => TM.backupName s.2.1) := by
  intro saves
  induction saves with
  | nil =>
    intro fs henv hst _
    exact ⟨fs, rfl, henv, hst, by simp⟩
  | cons s rest ih =>
    intro fs henv hst hnd
    obtain ⟨d, hd⟩ := hst
    simp only [List.map_cons] at hnd
    have hdisj := (List.nodup_append.mp hnd).2.2
    have hfresh : ∀ p ∈ fs.backups, p.1 ≠ TM.backupName s.2.1 := by
      intro p hp heq
      exact hdisj (List.mem_map_of_mem Prod.fst hp)
        (heq ▸ List.mem_cons_self _ _)
    have hone := save_tasks_ok sha K hK s.1 s.2.1 s.2.2 fs d henv hd
    have hput := putBackup_fresh fs.backups (TM.backupName s.2.1) d hfresh
    have hrec := ih
      { fs with
        backups := TM.putBackup fs.backups (TM.backupName s.2.1) d,
        store := some (.enc (fernetEncrypt K s.1 (json_dumps s.2.2))),
        hashFile := some (TM.calculate_hash sha (json_dumps s.2.2)) }
      henv ⟨_, rfl⟩ (by
        simp only [hput, List.map_append, List.map_cons, List.map_nil,
          List.append_assoc, List.singleton_append]
        exact hnd)
    obtain ⟨fs2, hrun, henv2, hst2, hmap⟩ := hrec
    refine ⟨fs2, ?_, henv2, hst2, ?_⟩
    · simp only [TM.save_seq, hone]
      exact hrun
    · rw [hmap]
      simp [hput, List.append_assoc]

/-- Helper: the rolling-variant `save_tasks` always leaves a store
file. -/
theorem Enc_save_seq_store_some (newKey : String) :
    ∀ (saves : List (Nat × List Task)) (efs : Enc.EFS),
      (∃ d, efs.store = some d) →
      ∃ d, (Enc.save_seq newKey saves efs).store = some d := by
  intro saves
  induction saves with
  | nil => intro efs h; exact h
  | cons s rest ih =>
    intro efs _
    have hstep : ∃ d, (Enc.save_tasks newKey s.1 s.2 efs).store = some d :=
      ⟨_, rfl⟩
    simpa [Enc.save_seq] using ih (Enc.save_tasks newKey s.1 s.2 efs) hstep

/-- Claim C2, amended: after N successive Saves on an existing store,
the rolling-backup policy leaves the backup file holding exactly the
store contents as they were before Save N; the archival policy leaves
one snapshot file per distinct capture timestamp, hence exactly N
snapshot files in an initially empty backup directory provided the N
second-granularity timestamps are pairwise distinct - Saves sharing a
timestamp overwrite the same snapshot file. -/
theorem backup_policies_amended (sha : String → String) (K newKey : String)
    (hK : K ≠ "")
    (saves : List (Nat × String × List Task))
    (pre : List (Nat × List Task)) (lastSave : Nat × List Task)
    (fs : TM.FS) (efs : Enc.EFS) (d0 : FileData)
    (henv : fs.env = some K) (hstore : ∃ d, fs.store = some d)
    (hb : fs.backups = [])
    (hts : (saves.map (fun s => s.2.1)).Nodup)
    (hestore : efs.store = some d0) :
    (∃ fs2, TM.save_seq sha saves fs = Except.ok fs2 ∧
      fs2.backups.length = saves.length) ∧
    (Enc.save_seq newKey (pre ++ [lastSave]) efs).bak =
      (Enc.save_seq newKey pre efs).store := by
  constructor
  · have hnames : (saves.map (fun s => TM.backupName s.2.1)).Nodup := by
      have : saves.map (fun s => TM.backupName s.2.1) =
          (saves.map (fun s => s.2.1)).map TM.backupName := by
        rw [List.map_map]
        rfl
      rw [this]
      exact hts.map backupName_injective
    obtain ⟨fs2, hrun, _, _, hmap⟩ :=
      save_seq_backups sha K hK saves fs henv hstore (by simp [hb, hnames])
    refine ⟨fs2, hrun, ?_⟩
    have := congrArg List.length hmap
    simpa [hb] using this
  · obtain ⟨d, hd⟩ :=
      Enc_save_seq_store_some newKey pre efs ⟨d0, hestore⟩
    have hsplit : Enc.save_seq newKey (pre ++ [lastSave]) efs =
        Enc.save_tasks newKey lastSave.1 lastSave.2
          (Enc.save_seq newKey pre efs) := by
      simp [Enc.save_seq]
    rw [hsplit, hd]
    cases hk : (Enc.save_seq newKey pre efs).keyFile <;>
      simp [Enc.save_tasks, Enc.backup_tasks_file, hd, Enc.encrypt_data,
        Enc.load_key, hk]

/-- Witness for the amended claim C2: two archival Saves with distinct
timestamps leave two snapshots; the rolling backup after the second of
two Saves holds the store as the first Save left it. -/
theorem backup_policies_amended_witness :
    (∃ fs2, TM.save_seq (fun s => s)
        [(0, "20240101_120000", []), (1, "20240101_120001", [])]
        ⟨some "k", some (.enc ⟨"k", 0, "[]"⟩), none, []⟩ = Except.ok fs2 ∧
      fs2.backups.length =
        [(0, "20240101_120000", ([] : List Task)),
         (1, "20240101_120001", [])].length) ∧
    (Enc.save_seq "nk" ([(0, ([] : List Task))] ++ [(1, [])])
        ⟨none, some (.enc ⟨"x", 0, "[]"⟩), none⟩).bak =
      (Enc.save_seq "nk" [(0, ([] : List Task))]
        ⟨none, some (.enc ⟨"x", 0, "[]"⟩), none⟩).store :=
  backup_policies_amended (fun s => s) "k" "nk" (by decide)
    [(0, "20240101_120000", []), (1, "20240101_120001", [])]
    [(0, [])] (1, [])
    ⟨some "k", some (.enc ⟨"k", 0, "[]"⟩), none, []⟩
    ⟨none, some (.enc ⟨"x", 0, "[]"⟩), none⟩
    (.enc ⟨"x", 0, "[]"⟩) rfl ⟨_, rfl⟩ rfl (by decide) rfl

end TaskTracker
